import Mathlib

/-!
Verification of the badge-lifecycle transaction builder
(`src/backend/src/services/identityService.ts`).

The development shallowly embeds the service's pure helpers
(`normalizeHex`, `isHex`, `requireHexBytes`, `makeBadgeAssetName`,
`findScript`, the datum/redeemer encoders) as Lean functions translated
line by line from the TypeScript source, and models the effectful
`mintBadge` entry point as a function from an explicit environment (the
derived custodial owner key hash, the loaded blueprint, and the external
ledger collaborators: UTxO query, transaction build / sign / submit) to
an event trace together with an `Except`-style result.  External library
calls that the service uses are modelled as follows:

* JavaScript strings are Lean `String`s (lists of characters); `trim`,
  the `/^0x/i` prefix strip and `toLowerCase` are embedded explicitly
  for the ASCII range the service manipulates.
* `Data.to(new Constr(tag, fields))` from the lucid library serializes a
  Plutus `Data` tree to CBOR; the serializer is deterministic and
  injective, so it is modelled as the injection into the `PData` tree
  type below.
* `toUnit(policyId, assetNameHex)` from the lucid library concatenates
  the two hex strings; it is modelled as string append.
* `mintingPolicyToId` and `validatorToAddress` are opaque derivations
  from the compiled scripts and live in the environment as function
  fields, as do the ledger client operations.
-/

/-- Characters removed by `String.prototype.trim`: the ECMAScript
WhiteSpace and LineTerminator sets, i.e. TAB (9), LF (10), VT (11),
FF (12), CR (13), the Space_Separator category (SPACE 32, NBSP 160,
OGHAM SPACE 5760, EN QUAD through HAIR SPACE 8192-8202, NARROW NBSP
8239, MEDIUM MATHEMATICAL SPACE 8287, IDEOGRAPHIC SPACE 12288), the
line separators LS (8232) and PS (8233), and ZWNBSP/BOM (65279). -/
def isJsWs (c : Char) : Bool :=
  decide ((9 ≤ c.toNat ∧ c.toNat ≤ 13) ∨ c.toNat = 32 ∨ c.toNat = 160 ∨
    c.toNat = 5760 ∨ (8192 ≤ c.toNat ∧ c.toNat ≤ 8202) ∨ c.toNat = 8232 ∨
    c.toNat = 8233 ∨ c.toNat = 8239 ∨ c.toNat = 8287 ∨ c.toNat = 12288 ∨
    c.toNat = 65279)

/-- JavaScript `input.trim()` on the character list. -/
def trimChars (l : List Char) : List Char :=
  ((l.dropWhile isJsWs).reverse.dropWhile isJsWs).reverse

/-- JavaScript `input.replace(/^0x/i, "")`: drop a single leading `0x` or
`0X` if present. -/
def stripHex0x : List Char → List Char
  | '0' :: c :: rest => if c = 'x' ∨ c = 'X' then rest else '0' :: c :: rest
  | l => l

/-- Source `normalizeHex`: `input.trim().replace(/^0x/i, "").toLowerCase()`. -/
def normalizeHex (input : String) : String :=
  ⟨(stripHex0x (trimChars input.data)).map Char.toLower⟩

/-- Character class of the source regex `/^[0-9a-f]+$/i`: digits `0-9`
(code points 48-57), `a-f` (97-102) or `A-F` (65-70). -/
def isHexChar (c : Char) : Bool :=
  decide ((48 ≤ c.toNat ∧ c.toNat ≤ 57) ∨ (97 ≤ c.toNat ∧ c.toNat ≤ 102) ∨
    (65 ≤ c.toNat ∧ c.toNat ≤ 70))

/-- Lowercase hex character: digit `0-9` or `a-f`.  These are the
characters that may appear in a canonical (already normalized) hex
rendering of a byte string. -/
def isLowerHex (c : Char) : Bool :=
  decide ((48 ≤ c.toNat ∧ c.toNat ≤ 57) ∨ (97 ≤ c.toNat ∧ c.toNat ≤ 102))

/-- Source `isHex`: `/^[0-9a-f]+$/i.test(input)` (nonempty, all hex). -/
def isHex (input : String) : Bool :=
  !input.data.isEmpty && input.data.all isHexChar

/-- Source `requireHexBytes(input, expectedLengthBytes, name)`. -/
def requireHexBytes (input : String) (expectedLengthBytes : Nat) (name : String) :
    Except String String :=
  let cleaned := normalizeHex input
  if !(isHex cleaned) || cleaned.length ≠ expectedLengthBytes * 2 then
    .error (name ++ " must be " ++ toString expectedLengthBytes ++
      " bytes hex (length " ++ toString (expectedLengthBytes * 2) ++ "), got '" ++
      input ++ "'")
  else
    .ok cleaned

/-- Hex digit for a nibble, lowercase (`Nat.digitChar` matches JavaScript
`n.toString(16)` digit choice for `n < 16`). -/
def hexDigitChar (n : Nat) : Char := Nat.digitChar n

/-- Two lowercase hex digits of a byte value: the embedding of
`level.toString(16).padStart(2, "0")` for `level` in `[0, 255]`. -/
def toHexByte (n : Nat) : List Char :=
  [hexDigitChar (n / 16), hexDigitChar (n % 16)]

/-- Source `makeBadgeAssetName(ownerVkhHex, level)`.  The TypeScript
`Number.isInteger(level)` guard is vacuous here because `level` is
embedded as `Int`. -/
def makeBadgeAssetName (ownerVkhHex : String) (level : Int) : Except String String := do
  let cleaned ← requireHexBytes ownerVkhHex 28 "ownerVkhHex"
  if level < 0 ∨ level > 255 then
    .error ("level must fit in 1 byte (0..255), got '" ++ toString level ++ "'")
  else
    .ok ("59" ++ String.mk (toHexByte level.toNat) ++ cleaned)

/-- Lowercase hex digit (value recovery), spec-side inverse of
`hexDigitChar` used to state the decoding direction of claims. -/
def fromHexDigit (c : Char) : Option Nat :=
  if 48 ≤ c.toNat ∧ c.toNat ≤ 57 then some (c.toNat - 48)
  else if 97 ≤ c.toNat ∧ c.toNat ≤ 102 then some (c.toNat - 87)
  else none

/-- Spec-side decoder of a badge asset name: checks the `0x59` tag byte,
reads the level byte, and returns the remaining owner key hash. -/
def decodeAssetName (s : String) : Option (Nat × String) :=
  match s.data with
  | c0 :: c1 :: c2 :: c3 :: rest =>
    if c0 = '5' ∧ c1 = '9' then
      (fromHexDigit c2).bind fun hi =>
        (fromHexDigit c3).map fun lo => (hi * 16 + lo, String.mk rest)
    else none
  | _ => none

/-- Plutus `Data` tree built by the service through lucid's `Constr`;
`Data.to` (deterministic, injective CBOR serialization, external
library) is modelled as the injection into this type. -/
inductive PData where
  | constr (tag : Nat) (fields : List PData)
  | int (i : Int)
  | bytes (hex : String)

/-- Source `encodeBadgeDatum(ownerKeyHashHex, level, policyId)`:
`Constr 0 [owner, level, policy_id]`. -/
def encodeBadgeDatum (ownerKeyHashHex : String) (level : Int) (policyId : String) : PData :=
  .constr 0 [.bytes ownerKeyHashHex, .int level, .bytes policyId]

/-- The three mint actions of the service (TypeScript string union
`"Init" | "Upgrade" | "Retire"`). -/
inductive BadgeAction where
  | init
  | upgrade
  | retire
deriving DecidableEq, Repr

/-- Optional argument record of `encodeBadgeMintRedeemer`. -/
structure MintArgs where
  level : Option Int := none
  fromLevel : Option Int := none
  toLevel : Option Int := none

/-- Source `encodeBadgeMintRedeemer(action, ownerKeyHashHex, args)`:
tags 0 / 1 / 2 for Init / Upgrade / Retire. -/
def encodeBadgeMintRedeemer (action : BadgeAction) (ownerKeyHashHex : String)
    (args : MintArgs) : Except String PData :=
  match action with
  | .init =>
    match args.level with
    | none => .error "Missing level for Init redeemer"
    | some l => .ok (.constr 0 [.bytes ownerKeyHashHex, .int l])
  | .upgrade =>
    match args.fromLevel, args.toLevel with
    | some fl, some tl => .ok (.constr 1 [.bytes ownerKeyHashHex, .int fl, .int tl])
    | _, _ => .error "Missing fromLevel/toLevel for Upgrade redeemer"
  | .retire =>
    match args.level with
    | none => .error "Missing level for Retire redeemer"
    | some l => .ok (.constr 2 [.bytes ownerKeyHashHex, .int l])

/-- Actions of the badge-holder spending validator (TypeScript union
`"Upgrade" | "Retire"`). -/
inductive HolderAction where
  | upgrade
  | retire
deriving DecidableEq, Repr

/-- Source `encodeBadgeHolderRedeemer(action, newLevel?)`: tag 0 for
Upgrade (one field), tag 1 for Retire (no fields). -/
def encodeBadgeHolderRedeemer (action : HolderAction) (newLevel : Option Int) :
    Except String PData :=
  match action with
  | .upgrade =>
    match newLevel with
    | none => .error "Missing newLevel for badge-holder Upgrade"
    | some nl => .ok (.constr 0 [.int nl])
  | .retire => .ok (.constr 1 [])

/-- Spec-side decoder of the badge datum shape: inverse of
`encodeBadgeDatum` on its image. -/
def decodeBadgeDatum : PData → Option (String × Int × String)
  | .constr 0 [.bytes o, .int l, .bytes p] => some (o, l, p)
  | _ => none

/-- Blueprint document (`cardano-contract/plutus.json`): preamble version
and validator entries; optional fields mirror the TypeScript type. -/
structure BValidator where
  title : Option String := none
  compiledCode : Option String := none
deriving DecidableEq, Repr

/-- Loaded contract bundle.  `preambleVersion` flattens the optional
`preamble?.plutusVersion` chain of the source. -/
structure Blueprint where
  preambleVersion : Option String := none
  validators : List BValidator := []
deriving DecidableEq, Repr

/-- JavaScript `String(x)` on the optional version field: `undefined`
prints as `"undefined"`. -/
def optVersionStr : Option String → String
  | some s => s
  | none => "undefined"

/-- Source `findScript(blueprint, title)`.  The TypeScript truthiness
test `!found?.compiledCode` also rejects an empty `compiledCode`. -/
def findScript (bp : Blueprint) (title : String) : Except String String :=
  match bp.validators.find? (fun v => v.title == some title) with
  | some v =>
    match v.compiledCode with
    | some code =>
      if code = "" then
        .error ("Compiled script not found in cardano-contract/plutus.json: " ++ title)
      else
        .ok code
    | none => .error ("Compiled script not found in cardano-contract/plutus.json: " ++ title)
  | none => .error ("Compiled script not found in cardano-contract/plutus.json: " ++ title)

/-- Unspent transaction output reference returned by the ledger client. -/
structure Utxo where
  txId : String
  outputIndex : Nat
deriving DecidableEq, Repr

/-- Output locked at a script address (`pay.ToContract` with an inline
datum and an asset map; lovelace kept separate as in the source call). -/
structure ContractOutput where
  address : String
  inlineDatum : PData
  lovelace : Int
  assets : List (String × Int)

/-- The transaction intent assembled by one `lucid.newTx()...` chain:
script attachments, required signers, inputs collected with their spend
redeemer, the mint/burn quantity map with its mint redeemer, and the
outputs to create. -/
structure TxIntent where
  mintingPolicy : Option String := none
  spendingValidator : Option String := none
  signerKeys : List String := []
  collectInputs : List (Utxo × PData) := []
  mints : List (String × Int) := []
  mintRedeemer : Option PData := none
  outputs : List ContractOutput := []

/-- The success value returned by `mintBadge`; optional fields cover the
per-action shapes of the TypeScript result object.  The redundant UTF-8
rendering `assetName` of `assetNameHex` is not modelled. -/
structure MintResult where
  success : Bool
  action : BadgeAction
  level : Int
  ownerVkhHex : String
  assetNameHex : Option String := none
  policyId : String
  unit : Option String := none
  fromUnit : Option String := none
  toUnit : Option String := none
  badgeHolderAddress : String
  txHash : String
  message : String

/-- Observable effects of one `mintBadge` call, in order: log lines, the
unspent-output query, and the build / sign / submit calls on the ledger
client (each carrying the intent they act on). -/
inductive TraceEvent where
  | logWarn (msg : String)
  | logInfo (msg : String)
  | logErr (msg : String)
  | utxoQuery (address unit : String)
  | buildCall (intent : TxIntent)
  | signCall (intent : TxIntent)
  | submitCall (intent : TxIntent)

/-- Environment of a `mintBadge` call: the owner key hash derived from
the custodial signing key (`getBackendPaymentKeyHashHex`), the loaded
blueprint, and the external collaborators (script-to-id and
script-to-address derivations, UTxO query, and the build / sign / submit
steps of the ledger client, each of which may fail). -/
structure MintEnv where
  ownerKeyHashHex : String
  blueprint : Blueprint
  mintingPolicyToId : String → String
  validatorToAddress : String → String
  utxosAtWithUnit : String → String → List Utxo
  buildTx : TxIntent → Except String Unit
  signTx : TxIntent → Except String Unit
  submitTx : TxIntent → Except String String

/-- The `complete` / `sign` / `submit` tail of each action branch: each
step is attempted only if the previous one succeeded, and each attempt
is recorded in the trace. -/
def runTx (env : MintEnv) (intent : TxIntent) : List TraceEvent × Except String String :=
  match env.buildTx intent with
  | .error e => ([.buildCall intent], .error e)
  | .ok _ =>
    match env.signTx intent with
    | .error e => ([.buildCall intent, .signCall intent], .error e)
    | .ok _ =>
      match env.submitTx intent with
      | .error e => ([.buildCall intent, .signCall intent, .submitCall intent], .error e)
      | .ok txHash => ([.buildCall intent, .signCall intent, .submitCall intent], .ok txHash)

/-- Action dispatch of `mintBadge` (the body of the `try` block):
assembles the per-action transaction intent and drives
build / sign / submit.  Parameters are the values the source computes
before the dispatch. -/
def mintBranch (env : MintEnv) (level : Int) (action : BadgeAction)
    (badgeMintPolicy badgeHolderValidator policyId assetNameHex unitName
      badgeHolderAddress : String) (badgeDatumCbor : PData) :
    List TraceEvent × Except String MintResult :=
  match action with
  | .init =>
    match encodeBadgeMintRedeemer .init env.ownerKeyHashHex { level := some level } with
    | .error e => ([], .error e)
    | .ok mintRedeemer =>
      let intent : TxIntent :=
        { mintingPolicy := some badgeMintPolicy
          signerKeys := [env.ownerKeyHashHex]
          mints := [(unitName, 1)]
          mintRedeemer := some mintRedeemer
          outputs := [⟨badgeHolderAddress, badgeDatumCbor, 2000000, [(unitName, 1)]⟩] }
      let r := runTx env intent
      (r.1, r.2.map fun txHash =>
        { success := true, action := .init, level := level
          ownerVkhHex := env.ownerKeyHashHex, assetNameHex := some assetNameHex
          policyId := policyId, unit := some unitName
          badgeHolderAddress := badgeHolderAddress, txHash := txHash
          message := "Badge minted and locked at badge-holder script" })
  | .upgrade =>
    let fromLevel := level - 1
    let toLevel := level
    if fromLevel < 0 then
      ([], .error "Upgrade requires `level` >= 1 (target new level)")
    else
      match makeBadgeAssetName env.ownerKeyHashHex fromLevel with
      | .error e => ([], .error e)
      | .ok fromAssetNameHex =>
        match makeBadgeAssetName env.ownerKeyHashHex toLevel with
        | .error e => ([], .error e)
        | .ok toAssetNameHex =>
          let fromUnit := policyId ++ fromAssetNameHex
          let toUnitValue := policyId ++ toAssetNameHex
          let qEv := TraceEvent.utxoQuery badgeHolderAddress fromUnit
          match (env.utxosAtWithUnit badgeHolderAddress fromUnit).head? with
          | none =>
            ([qEv], .error ("No badge-holder UTxO found for level " ++
              toString fromLevel ++ " at " ++ badgeHolderAddress))
          | some targetUtxo =>
            match encodeBadgeMintRedeemer .upgrade env.ownerKeyHashHex
                { fromLevel := some fromLevel, toLevel := some toLevel } with
            | .error e => ([qEv], .error e)
            | .ok mintRedeemer =>
              match encodeBadgeHolderRedeemer .upgrade (some toLevel) with
              | .error e => ([qEv], .error e)
              | .ok spendRedeemer =>
                let inlineDatum := encodeBadgeDatum env.ownerKeyHashHex toLevel policyId
                let intent : TxIntent :=
                  { mintingPolicy := some badgeMintPolicy
                    spendingValidator := some badgeHolderValidator
                    signerKeys := [env.ownerKeyHashHex]
                    collectInputs := [(targetUtxo, spendRedeemer)]
                    mints := [(fromUnit, -1), (toUnitValue, 1)]
                    mintRedeemer := some mintRedeemer
                    outputs := [⟨badgeHolderAddress, inlineDatum, 2000000, [(toUnitValue, 1)]⟩] }
                let r := runTx env intent
                (qEv :: r.1, r.2.map fun txHash =>
                  { success := true, action := .upgrade, level := toLevel
                    ownerVkhHex := env.ownerKeyHashHex, policyId := policyId
                    fromUnit := some fromUnit, toUnit := some toUnitValue
                    badgeHolderAddress := badgeHolderAddress, txHash := txHash
                    message := "Badge upgraded" })
  | .retire =>
    match makeBadgeAssetName env.ownerKeyHashHex level with
    | .error e => ([], .error e)
    | .ok assetNameHexRetire =>
      let unitRetire := policyId ++ assetNameHexRetire
      let qEv := TraceEvent.utxoQuery badgeHolderAddress unitRetire
      match (env.utxosAtWithUnit badgeHolderAddress unitRetire).head? with
      | none =>
        ([qEv], .error ("No badge-holder UTxO found for level " ++
          toString level ++ " at " ++ badgeHolderAddress))
      | some targetUtxo =>
        match encodeBadgeMintRedeemer .retire env.ownerKeyHashHex { level := some level } with
        | .error e => ([qEv], .error e)
        | .ok mintRedeemer =>
          match encodeBadgeHolderRedeemer .retire none with
          | .error e => ([qEv], .error e)
          | .ok spendRedeemer =>
            let intent : TxIntent :=
              { mintingPolicy := some badgeMintPolicy
                spendingValidator := some badgeHolderValidator
                signerKeys := [env.ownerKeyHashHex]
                collectInputs := [(targetUtxo, spendRedeemer)]
                mints := [(unitRetire, -1)]
                mintRedeemer := some mintRedeemer }
            let r := runTx env intent
            (qEv :: r.1, r.2.map fun txHash =>
              { success := true, action := .retire, level := level
                ownerVkhHex := env.ownerKeyHashHex, policyId := policyId
                unit := some unitRetire
                badgeHolderAddress := badgeHolderAddress, txHash := txHash
                message := "Badge retired (burned)" })

/-- The error log appended by the `catch` block of the source before the
error is rethrown unchanged. -/
def errTail : Except String MintResult → List TraceEvent
  | .error _ => [.logErr "Badge mint failed"]
  | .ok _ => []

/-- The body of `mintBadge` after the owner-hint handling: blueprint
version check, script resolution, identifier derivation, then the
action dispatch wrapped by the log-and-rethrow `catch`.  Failures
raised before the `try` block carry no error log. -/
def mintBadgeCore (env : MintEnv) (level : Int) (action : BadgeAction) :
    List TraceEvent × Except String MintResult :=
  let ev0 := [TraceEvent.logInfo "mintBadge called"]
  if env.blueprint.preambleVersion ≠ some "v3" then
    (ev0, .error ("Expected Plutus V3 blueprint at cardano-contract/plutus.json, got " ++
      optVersionStr env.blueprint.preambleVersion))
  else
    match findScript env.blueprint "badge_mint.badge_mint.mint" with
    | .error e => (ev0, .error e)
    | .ok badgeMintPolicy =>
      match findScript env.blueprint "badge_holder.badge_holder.spend" with
      | .error e => (ev0, .error e)
      | .ok badgeHolderValidator =>
        let policyId := env.mintingPolicyToId badgeMintPolicy
        match makeBadgeAssetName env.ownerKeyHashHex level with
        | .error e => (ev0, .error e)
        | .ok assetNameHex =>
          let unitName := policyId ++ assetNameHex
          let badgeHolderAddress := env.validatorToAddress badgeHolderValidator
          let badgeDatumCbor := encodeBadgeDatum env.ownerKeyHashHex level policyId
          let branch := mintBranch env level action badgeMintPolicy badgeHolderValidator
            policyId assetNameHex unitName badgeHolderAddress badgeDatumCbor
          (ev0 ++ branch.1 ++ errTail branch.2, branch.2)

/-- The owner-hint handling at the top of `mintBadge`: a falsy (absent
or empty) hint is skipped; otherwise a mismatching or malformed hint is
logged as a warning and otherwise ignored. -/
def ownerHintEvents (env : MintEnv) (ownerVkhHex : Option String) : List TraceEvent :=
  match ownerVkhHex with
  | none => []
  | some hint =>
    if hint = "" then []
    else
      match requireHexBytes hint 28 "ownerVkhHex" with
      | .ok requested =>
        if requested ≠ env.ownerKeyHashHex then
          [.logWarn "Ignoring provided ownerVkhHex; using server signing key"]
        else []
      | .error _ =>
        [.logWarn "Invalid ownerVkhHex provided; using server signing key"]

/-- Source `mintBadge({ownerVkhHex, level, action})`: owner-hint
handling followed by the main body, which never reads the hint. -/
def mintBadge (env : MintEnv) (ownerVkhHex : Option String) (level : Int)
    (action : BadgeAction) : List TraceEvent × Except String MintResult :=
  let core := mintBadgeCore env level action
  (ownerHintEvents env ownerVkhHex ++ core.1, core.2)

/-- Warning log events of a trace (dropped when comparing two runs that
may differ only in logging). -/
def isWarnEvent : TraceEvent → Bool
  | .logWarn _ => true
  | _ => false

/-- Trace with warning log lines removed. -/
def dropWarns (tr : List TraceEvent) : List TraceEvent :=
  tr.filter fun e => !isWarnEvent e

/-- Unspent-output queries of a trace. -/
def queryEvents (tr : List TraceEvent) : List TraceEvent :=
  tr.filter fun e => match e with | .utxoQuery _ _ => true | _ => false

/-- Build (`.complete()`) attempts of a trace. -/
def buildEvents (tr : List TraceEvent) : List TraceEvent :=
  tr.filter fun e => match e with | .buildCall _ => true | _ => false

/-- Signing attempts of a trace. -/
def signEvents (tr : List TraceEvent) : List TraceEvent :=
  tr.filter fun e => match e with | .signCall _ => true | _ => false

/-- Submission attempts of a trace. -/
def submitEvents (tr : List TraceEvent) : List TraceEvent :=
  tr.filter fun e => match e with | .submitCall _ => true | _ => false

/-- Mint/burn quantity maps of the intents whose build was attempted. -/
def builtMints (tr : List TraceEvent) : List (List (String × Int)) :=
  tr.filterMap fun e => match e with | .buildCall i => some i.mints | _ => none

/-- Output lists of the intents whose build was attempted. -/
def builtOutputs (tr : List TraceEvent) : List (List ContractOutput) :=
  tr.filterMap fun e => match e with | .buildCall i => some i.outputs | _ => none

/-- Canonical byte-level representation of a 28-byte key hash: exactly
56 lowercase hex characters.  This is the form produced by
`getBackendPaymentKeyHashHex` (hex of a 28-byte hash, lowercased). -/
def ValidOwnerHex (s : String) : Prop :=
  s.data.length = 56 ∧ ∀ c ∈ s.data, isLowerHex c = true

instance (s : String) : Decidable (ValidOwnerHex s) := by
  unfold ValidOwnerHex; infer_instance

/-- Boolean list-prefix test, used to state message containment. -/
def isPrefOf (needle hay : List Char) : Bool :=
  match needle, hay with
  | [], _ => true
  | n :: ns, h :: hs => if n = h then isPrefOf ns hs else false
  | _, _ => false

/-- Boolean substring test: `hasSub needle hay` holds when `needle`
occurs contiguously inside `hay`. -/
def hasSub (needle : List Char) : List Char → Bool
  | [] => isPrefOf needle []
  | c :: rest => isPrefOf needle (c :: rest) || hasSub needle rest

/-- Concrete 28-byte owner key hash (56 lowercase hex characters) used
by the witnesses. -/
def ownerA : String :=
  "aaaaaaaaaaaaaaaaaaaaaaaaaaaaaaaaaaaaaaaaaaaaaaaaaaaaaaaa"

/-- Concrete well-formed blueprint used by the witnesses. -/
def bpOK : Blueprint :=
  { preambleVersion := some "v3"
    validators :=
      [ { title := some "badge_mint.badge_mint.mint", compiledCode := some "MINTCODE" }
      , { title := some "badge_holder.badge_holder.spend", compiledCode := some "SPENDCODE" } ] }

/-- Concrete environment whose external collaborators all succeed. -/
def envOK : MintEnv :=
  { ownerKeyHashHex := ownerA
    blueprint := bpOK
    mintingPolicyToId := fun _ => "feedbeef"
    validatorToAddress := fun _ => "addr_test1holder"
    utxosAtWithUnit := fun _ _ => [⟨"0123", 0⟩]
    buildTx := fun _ => .ok ()
    signTx := fun _ => .ok ()
    submitTx := fun _ => .ok "deadbeefhash" }

/-- Environment whose unspent-output query finds nothing. -/
def envNoUtxo : MintEnv :=
  { envOK with utxosAtWithUnit := fun _ _ => [] }

/-- Environment whose transaction build step fails. -/
def envBuildFail : MintEnv :=
  { envOK with buildTx := fun _ => .error "boom" }

/-- Environment whose signing step fails. -/
def envSignFail : MintEnv :=
  { envOK with signTx := fun _ => .error "nosig" }

/-- Environment whose submission step fails. -/
def envSubmitFail : MintEnv :=
  { envOK with submitTx := fun _ => .error "rejected" }

theorem char_toNat_ofNat {n : Nat} (h : Nat.isValidChar n) :
    (Char.ofNat n).toNat = n := by
  rw [Char.ofNat, dif_pos h]
  rfl

theorem toLower_eq_self {c : Char} (h : ¬(c.toNat ≥ 65 ∧ c.toNat ≤ 90)) :
    c.toLower = c := by
  simp only [Char.toLower]
  rw [if_neg h]

theorem toLower_toNat_upper {c : Char} (h : c.toNat ≥ 65 ∧ c.toNat ≤ 90) :
    c.toLower.toNat = c.toNat + 32 := by
  simp only [Char.toLower]
  rw [if_pos h, char_toNat_ofNat]
  exact Or.inl (by omega)

theorem toLower_not_upper (c : Char) :
    ¬(65 ≤ c.toLower.toNat ∧ c.toLower.toNat ≤ 90) := by
  by_cases h : c.toNat ≥ 65 ∧ c.toNat ≤ 90
  · rw [toLower_toNat_upper h]
    omega
  · rw [toLower_eq_self h]
    exact h

theorem isLowerHex_toLower {c : Char} (h : isHexChar c = true) :
    isLowerHex c.toLower = true := by
  simp only [isHexChar, decide_eq_true_eq] at h
  by_cases hu : c.toNat ≥ 65 ∧ c.toNat ≤ 90
  · have := toLower_toNat_upper hu
    simp only [isLowerHex, decide_eq_true_eq]
    omega
  · rw [toLower_eq_self hu]
    simp only [isLowerHex, decide_eq_true_eq]
    omega

theorem toLower_eq_self_of_lowerHex {c : Char} (h : isLowerHex c = true) :
    c.toLower = c := by
  simp only [isLowerHex, decide_eq_true_eq] at h
  exact toLower_eq_self (by omega)

theorem isHexChar_of_lowerHex {c : Char} (h : isLowerHex c = true) :
    isHexChar c = true := by
  simp only [isLowerHex, decide_eq_true_eq] at h
  simp only [isHexChar, decide_eq_true_eq]
  omega

theorem isJsWs_eq_false_of_lowerHex {c : Char} (h : isLowerHex c = true) :
    isJsWs c = false := by
  simp only [isLowerHex, decide_eq_true_eq] at h
  simp only [isJsWs, decide_eq_false_iff_not]
  omega

theorem dropWhile_eq_self_of {p : Char → Bool} {l : List Char}
    (h : ∀ c ∈ l, p c = false) : l.dropWhile p = l := by
  cases l with
  | nil => rfl
  | cons a t =>
    rw [List.dropWhile_cons, if_neg]
    simp [h a (List.mem_cons_self a t)]

theorem trimChars_eq_self {l : List Char} (h : ∀ c ∈ l, isJsWs c = false) :
    trimChars l = l := by
  unfold trimChars
  rw [dropWhile_eq_self_of h, dropWhile_eq_self_of, List.reverse_reverse]
  intro c hc
  exact h c (List.mem_reverse.mp hc)

theorem stripHex0x_eq_self {l : List Char} (h : ∀ c ∈ l, isLowerHex c = true) :
    stripHex0x l = l := by
  match l with
  | [] => rfl
  | [a] =>
    unfold stripHex0x
    split
    · rename_i heq
      cases heq
    · rfl
  | a :: b :: t =>
    have hb := h b (List.mem_cons_of_mem a (List.mem_cons_self b t))
    simp only [isLowerHex, decide_eq_true_eq] at hb
    unfold stripHex0x
    split
    · rename_i c rest heq
      injection heq with h1 h2
      injection h2 with h2 h3
      subst h1
      subst h2
      subst h3
      rw [if_neg]
      rintro (rfl | rfl) <;> revert hb <;> decide
    · rfl

theorem map_toLower_eq_self {l : List Char} (h : ∀ c ∈ l, isLowerHex c = true) :
    l.map Char.toLower = l := by
  induction l with
  | nil => rfl
  | cons a t ih =>
    simp only [List.map_cons]
    rw [toLower_eq_self_of_lowerHex (h a (List.mem_cons_self a t)),
      ih fun c hc => h c (List.mem_cons_of_mem a hc)]

theorem normalizeHex_eq_self {s : String} (h : ∀ c ∈ s.data, isLowerHex c = true) :
    normalizeHex s = s := by
  unfold normalizeHex
  rw [trimChars_eq_self fun c hc => isJsWs_eq_false_of_lowerHex (h c hc),
    stripHex0x_eq_self h, map_toLower_eq_self h]

theorem isHex_eq_true {s : String} (hne : s.data ≠ [])
    (h : ∀ c ∈ s.data, isHexChar c = true) : isHex s = true := by
  unfold isHex
  rw [Bool.and_eq_true, List.all_eq_true]
  constructor
  · simpa [List.isEmpty_iff] using hne
  · exact h

theorem requireHexBytes_of_valid {s : String} {n : Nat} (name : String)
    (hlen : s.data.length = n * 2) (hne : s.data ≠ [])
    (hhex : ∀ c ∈ s.data, isLowerHex c = true) :
    requireHexBytes s n name = .ok s := by
  unfold requireHexBytes
  rw [normalizeHex_eq_self hhex]
  have h1 : isHex s = true := isHex_eq_true hne fun c hc => isHexChar_of_lowerHex (hhex c hc)
  have h2 : s.length = n * 2 := hlen
  simp [h1, h2]

theorem makeBadgeAssetName_valid {s : String} {level : Int} (h : ValidOwnerHex s)
    (h0 : 0 ≤ level) (h255 : level ≤ 255) :
    makeBadgeAssetName s level = .ok ("59" ++ String.mk (toHexByte level.toNat) ++ s) := by
  obtain ⟨hlen, hhex⟩ := h
  have hne : s.data ≠ [] := by
    intro hnil
    rw [hnil] at hlen
    simp at hlen
  unfold makeBadgeAssetName
  rw [requireHexBytes_of_valid "ownerVkhHex" (by omega) hne hhex]
  show (if level < 0 ∨ level > 255 then _ else _) = _
  rw [if_neg (by omega)]

theorem fromHexDigit_hexDigitChar {d : Nat} (h : d < 16) :
    fromHexDigit (hexDigitChar d) = some d := by
  interval_cases d <;> decide

theorem lowerHex_hexDigitChar {d : Nat} (h : d < 16) :
    isLowerHex (hexDigitChar d) = true := by
  interval_cases d <;> decide

theorem badgeName_data (n : Nat) (s : String) :
    ("59" ++ String.mk (toHexByte n) ++ s).data
      = '5' :: '9' :: hexDigitChar (n / 16) :: hexDigitChar (n % 16) :: s.data := by
  simp [String.data_append, toHexByte]

theorem decodeAssetName_badgeName {n : Nat} (hn : n < 256) (s : String) :
    decodeAssetName ("59" ++ String.mk (toHexByte n) ++ s) = some (n, s) := by
  unfold decodeAssetName
  rw [badgeName_data]
  show (if ('5' : Char) = '5' ∧ ('9' : Char) = '9' then _ else none) = _
  rw [if_pos ⟨rfl, rfl⟩]
  rw [fromHexDigit_hexDigitChar (by omega), fromHexDigit_hexDigitChar (by omega)]
  show some (n / 16 * 16 + n % 16, String.mk s.data) = some (n, s)
  have : n / 16 * 16 + n % 16 = n := by omega
  rw [this]

theorem requireHexBytes_eq_ok_iff (input : String) (n : Nat) (name : String) :
    requireHexBytes input n name = .ok (normalizeHex input) ↔
      (isHex (normalizeHex input) = true ∧ (normalizeHex input).length = n * 2) := by
  unfold requireHexBytes
  by_cases hc : (!(isHex (normalizeHex input)) ||
      decide ((normalizeHex input).length ≠ n * 2)) = true
  · rw [if_pos hc]
    simp only [Bool.or_eq_true, Bool.not_eq_true', decide_eq_true_eq] at hc
    constructor
    · intro h
      cases h
    · rintro ⟨hT, hlen⟩
      rcases hc with hF | hne
      · rw [hT] at hF
        cases hF
      · exact absurd hlen hne
  · rw [if_neg hc]
    simp only [Bool.or_eq_true, Bool.not_eq_true', decide_eq_true_eq, not_or,
      Bool.not_eq_false, not_not] at hc
    exact ⟨fun _ => hc, fun _ => rfl⟩

theorem requireHexBytes_err_or_ok (input : String) (n : Nat) (name : String) :
    requireHexBytes input n name = .ok (normalizeHex input) ∨
      requireHexBytes input n name = .error (name ++ " must be " ++ toString n ++
        " bytes hex (length " ++ toString (n * 2) ++ "), got '" ++ input ++ "'") := by
  unfold requireHexBytes
  by_cases hc : (!(isHex (normalizeHex input)) ||
      decide ((normalizeHex input).length ≠ n * 2)) = true
  · right
    rw [if_pos hc]
  · left
    rw [if_neg hc]

theorem normalizeHex_no_upper (input : String) :
    ∀ c ∈ (normalizeHex input).data, ¬(65 ≤ c.toNat ∧ c.toNat ≤ 90) := by
  intro c hc
  unfold normalizeHex at hc
  simp only [List.mem_map] at hc
  obtain ⟨c0, _, rfl⟩ := hc
  exact toLower_not_upper c0

theorem lowerHex_of_hex_not_upper {c : Char} (hhex : isHexChar c = true)
    (hup : ¬(65 ≤ c.toNat ∧ c.toNat ≤ 90)) : isLowerHex c = true := by
  simp only [isHexChar, decide_eq_true_eq] at hhex
  simp only [isLowerHex, decide_eq_true_eq]
  omega

/-- C2: for every valid 28-byte owner key hash (56 lowercase hex
characters) and every integer level in `[0, 255]`, `makeBadgeAssetName`
succeeds and returns the 30-byte (60 hex character) name
`0x59 || level byte || owner hash`; the name decodes back to the tag,
level and owner exactly, and the map is injective on (owner, level)
pairs. -/
theorem makeBadgeAssetName_correct (owner : String) (level : Int)
    (h : ValidOwnerHex owner) (h0 : 0 ≤ level) (h255 : level ≤ 255) :
    makeBadgeAssetName owner level =
      .ok ("59" ++ String.mk (toHexByte level.toNat) ++ owner) ∧
    ("59" ++ String.mk (toHexByte level.toNat) ++ owner).data.length = 60 ∧
    decodeAssetName ("59" ++ String.mk (toHexByte level.toNat) ++ owner) =
      some (level.toNat, owner) ∧
    (∀ owner2 level2, ValidOwnerHex owner2 → 0 ≤ level2 → level2 ≤ 255 →
      makeBadgeAssetName owner2 level2 = makeBadgeAssetName owner level →
      owner2 = owner ∧ level2 = level) := by
  have hv := makeBadgeAssetName_valid h h0 h255
  refine ⟨hv, ?_, decodeAssetName_badgeName (by omega) owner, ?_⟩
  · rw [badgeName_data]
    simp [h.1]
  · intro owner2 level2 h2 h20 h2255 heq
    have hv2 := makeBadgeAssetName_valid h2 h20 h2255
    rw [hv2, hv] at heq
    have hnames : ("59" ++ String.mk (toHexByte level2.toNat) ++ owner2) =
        ("59" ++ String.mk (toHexByte level.toNat) ++ owner) := by
      injection heq
    have hd2 := @decodeAssetName_badgeName level2.toNat (by omega) owner2
    have hd := @decodeAssetName_badgeName level.toNat (by omega) owner
    rw [hnames, hd] at hd2
    have hpair := Option.some.inj hd2
    have hl : level.toNat = level2.toNat := congrArg Prod.fst hpair
    have ho : owner = owner2 := congrArg Prod.snd hpair
    exact ⟨ho.symm, by omega⟩

theorem makeBadgeAssetName_correct_witness :
    ValidOwnerHex ownerA ∧ (0 : Int) ≤ 3 ∧ (3 : Int) ≤ 255 ∧
    makeBadgeAssetName ownerA 3 =
      .ok ("59" ++ String.mk (toHexByte (3 : Int).toNat) ++ ownerA) :=
  ⟨by decide, by decide, by decide,
    (makeBadgeAssetName_correct ownerA 3 (by decide) (by decide) (by decide)).1⟩

/-- C7 (amended): for every input, the hex validator strips an optional
`0x` prefix and lowercases (the returned value is the normalized form
and never contains an uppercase letter); its only error is the one
naming the field, the expected length and the actual input; and it
accepts exactly the inputs whose cleaned form has length
`2 * expectedByteLength`, consists of hex characters only, and is
nonempty — the nonemptiness condition is what the original claim
missed. -/
theorem requireHexBytes_characterization (input : String) (n : Nat) (name : String) :
    (requireHexBytes input n name = .ok (normalizeHex input) ∨
      requireHexBytes input n name = .error (name ++ " must be " ++ toString n ++
        " bytes hex (length " ++ toString (n * 2) ++ "), got '" ++ input ++ "'")) ∧
    (requireHexBytes input n name = .ok (normalizeHex input) ↔
      ((normalizeHex input).data.length = n * 2 ∧
        (∀ c ∈ (normalizeHex input).data, isHexChar c = true) ∧
        (normalizeHex input).data ≠ [])) ∧
    (∀ c ∈ (normalizeHex input).data, ¬(65 ≤ c.toNat ∧ c.toNat ≤ 90)) := by
  refine ⟨requireHexBytes_err_or_ok input n name, ?_, normalizeHex_no_upper input⟩
  rw [requireHexBytes_eq_ok_iff]
  unfold isHex
  rw [Bool.and_eq_true, List.all_eq_true]
  constructor
  · rintro ⟨⟨hne, hall⟩, hlen⟩
    refine ⟨hlen, hall, ?_⟩
    simpa [List.isEmpty_iff] using hne
  · rintro ⟨hlen, hall, hne⟩
    refine ⟨⟨?_, hall⟩, hlen⟩
    simpa [List.isEmpty_iff] using hne

/-- C7 counterexample: with `expectedByteLength = 0` the empty input is
rejected even though its cleaned form has exactly the expected length
`0` and contains no non-hex character, so the validator does not reject
"exactly" the inputs the claim describes. -/
theorem requireHexBytes_empty_rejected :
    requireHexBytes "" 0 "field" =
      .error "field must be 0 bytes hex (length 0), got ''" ∧
    (normalizeHex "").data.length = 0 * 2 ∧
    (∀ c ∈ (normalizeHex "").data, isHexChar c = true) := by
  refine ⟨rfl, by decide, ?_⟩
  intro c hc
  simp [show (normalizeHex "").data = [] from rfl] at hc

/-- C9: the datum and redeemer encoders are pure functions of their
arguments (they are plain Lean functions over the `PData` tree that the
deterministic, injective external serializer renders to bytes), the
badge datum uses constructor tag 0 with fields in the order
(owner, level, policyId) and decodes back to the original triple, the
mint redeemer uses tags 0 / 1 / 2 for Init / Upgrade / Retire, and the
holder redeemer uses tags 0 / 1 for Upgrade / Retire. -/
theorem encoders_deterministic_roundtrip (owner : String) (level : Int)
    (policyId : String) (fromLevel toLevel newLevel : Int) :
    encodeBadgeDatum owner level policyId =
      .constr 0 [.bytes owner, .int level, .bytes policyId] ∧
    decodeBadgeDatum (encodeBadgeDatum owner level policyId) =
      some (owner, level, policyId) ∧
    encodeBadgeMintRedeemer .init owner { level := some level } =
      .ok (.constr 0 [.bytes owner, .int level]) ∧
    encodeBadgeMintRedeemer .upgrade owner
        { fromLevel := some fromLevel, toLevel := some toLevel } =
      .ok (.constr 1 [.bytes owner, .int fromLevel, .int toLevel]) ∧
    encodeBadgeMintRedeemer .retire owner { level := some level } =
      .ok (.constr 2 [.bytes owner, .int level]) ∧
    encodeBadgeHolderRedeemer .upgrade (some newLevel) =
      .ok (.constr 0 [.int newLevel]) ∧
    encodeBadgeHolderRedeemer .retire none = .ok (.constr 1 []) :=
  ⟨rfl, rfl, rfl, rfl, rfl, rfl, rfl⟩

/-- C10: the hex validator accepts surrounding whitespace and a
case-insensitive `0x` prefix: whenever the trimmed, de-prefixed,
lowercased form of the input (which is exactly `normalizeHex`) is valid
hex of the expected length, validation succeeds and returns that
cleaned form, which never contains an uppercase letter; consequently a
badge asset name built from such an input is entirely lowercase hex. -/
theorem normalizeHex_tolerant_inputs (s : String) (n : Nat) (name : String)
    (h1 : isHex (normalizeHex s) = true)
    (h2 : (normalizeHex s).data.length = n * 2) :
    requireHexBytes s n name = .ok (normalizeHex s) ∧
    (∀ c ∈ (normalizeHex s).data, isLowerHex c = true) ∧
    ((normalizeHex s).data.length = 56 → ∀ level : Int, 0 ≤ level → level ≤ 255 →
      makeBadgeAssetName s level =
        .ok ("59" ++ String.mk (toHexByte level.toNat) ++ normalizeHex s) ∧
      ∀ c ∈ ("59" ++ String.mk (toHexByte level.toNat) ++ normalizeHex s).data,
        isLowerHex c = true) := by
  have hall : ∀ c ∈ (normalizeHex s).data, isHexChar c = true := by
    unfold isHex at h1
    rw [Bool.and_eq_true, List.all_eq_true] at h1
    exact h1.2
  have hlow : ∀ c ∈ (normalizeHex s).data, isLowerHex c = true := fun c hc =>
    lowerHex_of_hex_not_upper (hall c hc) (normalizeHex_no_upper s c hc)
  have hok : requireHexBytes s n name = .ok (normalizeHex s) := by
    rw [requireHexBytes_eq_ok_iff]
    exact ⟨h1, h2⟩
  refine ⟨hok, hlow, ?_⟩
  intro h56 level hl0 hl255
  have hok28 : requireHexBytes s 28 "ownerVkhHex" = .ok (normalizeHex s) := by
    rw [requireHexBytes_eq_ok_iff]
    exact ⟨h1, h56⟩
  constructor
  · unfold makeBadgeAssetName
    rw [hok28]
    show (if level < 0 ∨ level > 255 then _ else _) = _
    rw [if_neg (by omega)]
  · intro c hc
    rw [badgeName_data] at hc
    simp only [List.mem_cons] at hc
    rcases hc with rfl | rfl | rfl | rfl | hmem
    · decide
    · decide
    · exact lowerHex_hexDigitChar (by omega)
    · exact lowerHex_hexDigitChar (by omega)
    · exact hlow c hmem

theorem normalizeHex_tolerant_inputs_witness :
    (isHex (normalizeHex "  0Xab12  ") = true ∧
      (normalizeHex "  0Xab12  ").data.length = 2 * 2 ∧
      requireHexBytes "  0Xab12  " 2 "f" = .ok (normalizeHex "  0Xab12  ")) ∧
    (isHex (normalizeHex "\u00A0\u00A00XAB12\u3000") = true ∧
      (normalizeHex "\u00A0\u00A00XAB12\u3000").data.length = 2 * 2 ∧
      requireHexBytes "\u00A0\u00A00XAB12\u3000" 2 "f" =
        .ok (normalizeHex "\u00A0\u00A00XAB12\u3000") ∧
      normalizeHex "\u00A0\u00A00XAB12\u3000" = "ab12") :=
  ⟨⟨by decide, by decide,
    (normalizeHex_tolerant_inputs "  0Xab12  " 2 "f" (by decide) (by decide)).1⟩,
   ⟨by decide, by decide,
    (normalizeHex_tolerant_inputs "\u00A0\u00A00XAB12\u3000" 2 "f"
      (by decide) (by decide)).1,
    by decide⟩⟩

theorem runTx_build_err {env : MintEnv} {i : TxIntent} {e : String}
    (h : env.buildTx i = .error e) :
    runTx env i = ([.buildCall i], .error e) := by
  unfold runTx
  rw [h]

theorem runTx_sign_err {env : MintEnv} {i : TxIntent} {e : String}
    (hb : env.buildTx i = .ok ()) (hs : env.signTx i = .error e) :
    runTx env i = ([.buildCall i, .signCall i], .error e) := by
  unfold runTx
  rw [hb, hs]

theorem runTx_submit_err {env : MintEnv} {i : TxIntent} {e : String}
    (hb : env.buildTx i = .ok ()) (hs : env.signTx i = .ok ())
    (hsub : env.submitTx i = .error e) :
    runTx env i = ([.buildCall i, .signCall i, .submitCall i], .error e) := by
  unfold runTx
  rw [hb, hs, hsub]

theorem runTx_all_ok {env : MintEnv} {i : TxIntent} {h : String}
    (hb : env.buildTx i = .ok ()) (hs : env.signTx i = .ok ())
    (hsub : env.submitTx i = .ok h) :
    runTx env i = ([.buildCall i, .signCall i, .submitCall i], .ok h) := by
  unfold runTx
  rw [hb, hs, hsub]

theorem runTx_builtMints (env : MintEnv) (i : TxIntent) :
    builtMints (runTx env i).1 = [i.mints] := by
  unfold runTx
  cases hb : env.buildTx i with
  | error e => simp [builtMints]
  | ok u =>
    cases hs : env.signTx i with
    | error e => simp [builtMints]
    | ok u2 =>
      cases hsub : env.submitTx i with
      | error e => simp [builtMints]
      | ok h => simp [builtMints]

theorem runTx_builtOutputs (env : MintEnv) (i : TxIntent) :
    builtOutputs (runTx env i).1 = [i.outputs] := by
  unfold runTx
  cases hb : env.buildTx i with
  | error e => simp [builtOutputs]
  | ok u =>
    cases hs : env.signTx i with
    | error e => simp [builtOutputs]
    | ok u2 =>
      cases hsub : env.submitTx i with
      | error e => simp [builtOutputs]
      | ok h => simp [builtOutputs]

theorem runTx_queryEvents (env : MintEnv) (i : TxIntent) :
    queryEvents (runTx env i).1 = [] := by
  unfold runTx
  cases hb : env.buildTx i with
  | error e => simp [queryEvents]
  | ok u =>
    cases hs : env.signTx i with
    | error e => simp [queryEvents]
    | ok u2 =>
      cases hsub : env.submitTx i with
      | error e => simp [queryEvents]
      | ok h => simp [queryEvents]

theorem ownerHintEvents_eq (env : MintEnv) (hint : Option String) :
    ownerHintEvents env hint = [] ∨
      ∃ m, ownerHintEvents env hint = [.logWarn m] := by
  unfold ownerHintEvents
  cases hint with
  | none => exact .inl rfl
  | some hv =>
    dsimp only
    by_cases h0 : hv = ""
    · rw [if_pos h0]
      exact .inl rfl
    · rw [if_neg h0]
      cases hreq : requireHexBytes hv 28 "ownerVkhHex" with
      | ok r =>
        dsimp only
        by_cases hne : r ≠ env.ownerKeyHashHex
        · rw [if_pos hne]
          exact .inr ⟨_, rfl⟩
        · rw [if_neg hne]
          exact .inl rfl
      | error err => exact .inr ⟨_, rfl⟩

theorem mintBadgeCore_reduce {env : MintEnv} {ms hs : String} (level : Int)
    (action : BadgeAction)
    (hv : env.blueprint.preambleVersion = some "v3")
    (hm : findScript env.blueprint "badge_mint.badge_mint.mint" = .ok ms)
    (hh : findScript env.blueprint "badge_holder.badge_holder.spend" = .ok hs)
    (ho : ValidOwnerHex env.ownerKeyHashHex) (h0 : 0 ≤ level) (h255 : level ≤ 255) :
    mintBadgeCore env level action =
      ([TraceEvent.logInfo "mintBadge called"] ++
        (mintBranch env level action ms hs (env.mintingPolicyToId ms)
          ("59" ++ String.mk (toHexByte level.toNat) ++ env.ownerKeyHashHex)
          (env.mintingPolicyToId ms ++
            ("59" ++ String.mk (toHexByte level.toNat) ++ env.ownerKeyHashHex))
          (env.validatorToAddress hs)
          (encodeBadgeDatum env.ownerKeyHashHex level (env.mintingPolicyToId ms))).1 ++
        errTail (mintBranch env level action ms hs (env.mintingPolicyToId ms)
          ("59" ++ String.mk (toHexByte level.toNat) ++ env.ownerKeyHashHex)
          (env.mintingPolicyToId ms ++
            ("59" ++ String.mk (toHexByte level.toNat) ++ env.ownerKeyHashHex))
          (env.validatorToAddress hs)
          (encodeBadgeDatum env.ownerKeyHashHex level (env.mintingPolicyToId ms))).2,
       (mintBranch env level action ms hs (env.mintingPolicyToId ms)
          ("59" ++ String.mk (toHexByte level.toNat) ++ env.ownerKeyHashHex)
          (env.mintingPolicyToId ms ++
            ("59" ++ String.mk (toHexByte level.toNat) ++ env.ownerKeyHashHex))
          (env.validatorToAddress hs)
          (encodeBadgeDatum env.ownerKeyHashHex level (env.mintingPolicyToId ms))).2) := by
  unfold mintBadgeCore
  simp only [hv, hm, hh, makeBadgeAssetName_valid ho h0 h255]
  rw [if_neg (by simp)]

theorem mintBranch_init_eval (env : MintEnv) (level : Int)
    (bm bh pid an unitName addr : String) (datum : PData) :
    mintBranch env level .init bm bh pid an unitName addr datum =
      (let I : TxIntent :=
        { mintingPolicy := some bm
          signerKeys := [env.ownerKeyHashHex]
          mints := [(unitName, 1)]
          mintRedeemer := some (.constr 0 [.bytes env.ownerKeyHashHex, .int level])
          outputs := [⟨addr, datum, 2000000, [(unitName, 1)]⟩] }
       ((runTx env I).1, Except.map (fun txHash =>
          { success := true, action := .init, level := level
            ownerVkhHex := env.ownerKeyHashHex, assetNameHex := some an
            policyId := pid, unit := some unitName
            badgeHolderAddress := addr, txHash := txHash
            message := "Badge minted and locked at badge-holder script" })
          (runTx env I).2)) := rfl

theorem mintBranch_upgrade_level0 (env : MintEnv) {level : Int} (hl : level < 1)
    (bm bh pid an unitName addr : String) (datum : PData) :
    mintBranch env level .upgrade bm bh pid an unitName addr datum =
      ([], .error "Upgrade requires `level` >= 1 (target new level)") := by
  unfold mintBranch
  rw [if_pos (by omega)]

theorem mintBranch_upgrade_noutxo (env : MintEnv) {level : Int}
    (ho : ValidOwnerHex env.ownerKeyHashHex) (h1 : 1 ≤ level) (h255 : level ≤ 255)
    (bm bh pid an unitName addr : String) (datum : PData)
    (hq : env.utxosAtWithUnit addr
      (pid ++ ("59" ++ String.mk (toHexByte (level - 1).toNat) ++ env.ownerKeyHashHex)) = []) :
    mintBranch env level .upgrade bm bh pid an unitName addr datum =
      ([.utxoQuery addr
          (pid ++ ("59" ++ String.mk (toHexByte (level - 1).toNat) ++ env.ownerKeyHashHex))],
       .error ("No badge-holder UTxO found for level " ++ toString (level - 1) ++
         " at " ++ addr)) := by
  unfold mintBranch
  rw [if_neg (by omega)]
  simp only [makeBadgeAssetName_valid ho (by omega : (0:Int) ≤ level - 1) (by omega : level - 1 ≤ 255),
    makeBadgeAssetName_valid ho (by omega : (0:Int) ≤ level) h255, hq]
  rfl

theorem mintBranch_upgrade_eval (env : MintEnv) {level : Int}
    (ho : ValidOwnerHex env.ownerKeyHashHex) (h1 : 1 ≤ level) (h255 : level ≤ 255)
    (bm bh pid an unitName addr : String) (datum : PData)
    {u : Utxo} {rest : List Utxo}
    (hq : env.utxosAtWithUnit addr
      (pid ++ ("59" ++ String.mk (toHexByte (level - 1).toNat) ++ env.ownerKeyHashHex)) =
        u :: rest) :
    mintBranch env level .upgrade bm bh pid an unitName addr datum =
      (let fromU := pid ++ ("59" ++ String.mk (toHexByte (level - 1).toNat) ++ env.ownerKeyHashHex)
       let toU := pid ++ ("59" ++ String.mk (toHexByte level.toNat) ++ env.ownerKeyHashHex)
       let I : TxIntent :=
        { mintingPolicy := some bm
          spendingValidator := some bh
          signerKeys := [env.ownerKeyHashHex]
          collectInputs := [(u, .constr 0 [.int level])]
          mints := [(fromU, -1), (toU, 1)]
          mintRedeemer := some (.constr 1 [.bytes env.ownerKeyHashHex, .int (level - 1), .int level])
          outputs := [⟨addr, encodeBadgeDatum env.ownerKeyHashHex level pid, 2000000, [(toU, 1)]⟩] }
       (TraceEvent.utxoQuery addr fromU :: (runTx env I).1,
        Except.map (fun txHash =>
          { success := true, action := .upgrade, level := level
            ownerVkhHex := env.ownerKeyHashHex, policyId := pid
            fromUnit := some fromU, toUnit := some toU
            badgeHolderAddress := addr, txHash := txHash
            message := "Badge upgraded" })
          (runTx env I).2)) := by
  unfold mintBranch
  rw [if_neg (by omega)]
  simp only [makeBadgeAssetName_valid ho (by omega : (0:Int) ≤ level - 1) (by omega : level - 1 ≤ 255),
    makeBadgeAssetName_valid ho (by omega : (0:Int) ≤ level) h255, hq]
  rfl

theorem mintBranch_retire_noutxo (env : MintEnv) {level : Int}
    (ho : ValidOwnerHex env.ownerKeyHashHex) (h0 : 0 ≤ level) (h255 : level ≤ 255)
    (bm bh pid an unitName addr : String) (datum : PData)
    (hq : env.utxosAtWithUnit addr
      (pid ++ ("59" ++ String.mk (toHexByte level.toNat) ++ env.ownerKeyHashHex)) = []) :
    mintBranch env level .retire bm bh pid an unitName addr datum =
      ([.utxoQuery addr
          (pid ++ ("59" ++ String.mk (toHexByte level.toNat) ++ env.ownerKeyHashHex))],
       .error ("No badge-holder UTxO found for level " ++ toString level ++
         " at " ++ addr)) := by
  unfold mintBranch
  simp only [makeBadgeAssetName_valid ho h0 h255, hq]
  rfl

theorem mintBranch_retire_eval (env : MintEnv) {level : Int}
    (ho : ValidOwnerHex env.ownerKeyHashHex) (h0 : 0 ≤ level) (h255 : level ≤ 255)
    (bm bh pid an unitName addr : String) (datum : PData)
    {u : Utxo} {rest : List Utxo}
    (hq : env.utxosAtWithUnit addr
      (pid ++ ("59" ++ String.mk (toHexByte level.toNat) ++ env.ownerKeyHashHex)) = u :: rest) :
    mintBranch env level .retire bm bh pid an unitName addr datum =
      (let unitR := pid ++ ("59" ++ String.mk (toHexByte level.toNat) ++ env.ownerKeyHashHex)
       let I : TxIntent :=
        { mintingPolicy := some bm
          spendingValidator := some bh
          signerKeys := [env.ownerKeyHashHex]
          collectInputs := [(u, .constr 1 [])]
          mints := [(unitR, -1)]
          mintRedeemer := some (.constr 2 [.bytes env.ownerKeyHashHex, .int level]) }
       (TraceEvent.utxoQuery addr unitR :: (runTx env I).1,
        Except.map (fun txHash =>
          { success := true, action := .retire, level := level
            ownerVkhHex := env.ownerKeyHashHex, policyId := pid
            unit := some unitR
            badgeHolderAddress := addr, txHash := txHash
            message := "Badge retired (burned)" })
          (runTx env I).2)) := by
  unfold mintBranch
  simp only [makeBadgeAssetName_valid ho h0 h255, hq]
  rfl

theorem errTail_queryEvents (x : Except String MintResult) :
    queryEvents (errTail x) = [] := by
  cases x <;> rfl

theorem errTail_signEvents (x : Except String MintResult) :
    signEvents (errTail x) = [] := by
  cases x <;> rfl

theorem errTail_submitEvents (x : Except String MintResult) :
    submitEvents (errTail x) = [] := by
  cases x <;> rfl

theorem errTail_buildEvents (x : Except String MintResult) :
    buildEvents (errTail x) = [] := by
  cases x <;> rfl

theorem errTail_builtMints (x : Except String MintResult) :
    builtMints (errTail x) = [] := by
  cases x <;> rfl

theorem errTail_builtOutputs (x : Except String MintResult) :
    builtOutputs (errTail x) = [] := by
  cases x <;> rfl

theorem hint_queryEvents (env : MintEnv) (hint : Option String) :
    queryEvents (ownerHintEvents env hint) = [] := by
  rcases ownerHintEvents_eq env hint with h | ⟨m, h⟩ <;> rw [h] <;> rfl

theorem hint_signEvents (env : MintEnv) (hint : Option String) :
    signEvents (ownerHintEvents env hint) = [] := by
  rcases ownerHintEvents_eq env hint with h | ⟨m, h⟩ <;> rw [h] <;> rfl

theorem hint_submitEvents (env : MintEnv) (hint : Option String) :
    submitEvents (ownerHintEvents env hint) = [] := by
  rcases ownerHintEvents_eq env hint with h | ⟨m, h⟩ <;> rw [h] <;> rfl

theorem hint_buildEvents (env : MintEnv) (hint : Option String) :
    buildEvents (ownerHintEvents env hint) = [] := by
  rcases ownerHintEvents_eq env hint with h | ⟨m, h⟩ <;> rw [h] <;> rfl

theorem hint_builtMints (env : MintEnv) (hint : Option String) :
    builtMints (ownerHintEvents env hint) = [] := by
  rcases ownerHintEvents_eq env hint with h | ⟨m, h⟩ <;> rw [h] <;> rfl

theorem hint_builtOutputs (env : MintEnv) (hint : Option String) :
    builtOutputs (ownerHintEvents env hint) = [] := by
  rcases ownerHintEvents_eq env hint with h | ⟨m, h⟩ <;> rw [h] <;> rfl

/-- C3: `mintBadge` is independent of the client-supplied owner hint:
the result and the non-warning trace (queries, build, sign, submit, info
and error logs) of two runs differing only in `ownerVkhHex` coincide,
and every non-warning event of a run occurs in the other run — a
mismatched or malformed hint at most adds a warning log and never causes
a failure. -/
theorem mintBadge_hint_independent (env : MintEnv) (hint hint2 : Option String)
    (level : Int) (action : BadgeAction) :
    (mintBadge env hint level action).2 = (mintBadge env hint2 level action).2 ∧
    dropWarns (mintBadge env hint level action).1 =
      dropWarns (mintBadge env hint2 level action).1 ∧
    (∀ e ∈ (mintBadge env hint level action).1, isWarnEvent e = false →
      e ∈ (mintBadge env hint2 level action).1) := by
  refine ⟨rfl, ?_, ?_⟩
  · show dropWarns (ownerHintEvents env hint ++ (mintBadgeCore env level action).1) =
      dropWarns (ownerHintEvents env hint2 ++ (mintBadgeCore env level action).1)
    unfold dropWarns
    rw [List.filter_append, List.filter_append]
    congr 1
    rcases ownerHintEvents_eq env hint with h | ⟨m, h⟩ <;>
      rcases ownerHintEvents_eq env hint2 with h2 | ⟨m2, h2⟩ <;>
      rw [h, h2] <;> rfl
  · intro e he hw
    rw [show (mintBadge env hint level action).1 =
      ownerHintEvents env hint ++ (mintBadgeCore env level action).1 from rfl,
      List.mem_append] at he
    rcases he with hh | hc
    · exfalso
      rcases ownerHintEvents_eq env hint with h | ⟨m, h⟩
      · rw [h] at hh
        cases hh
      · rw [h] at hh
        simp only [List.mem_singleton] at hh
        subst hh
        simp [isWarnEvent] at hw
    · exact List.mem_append_right _ hc

theorem queryEvents_append (a b : List TraceEvent) :
    queryEvents (a ++ b) = queryEvents a ++ queryEvents b :=
  List.filter_append _ _

theorem buildEvents_append (a b : List TraceEvent) :
    buildEvents (a ++ b) = buildEvents a ++ buildEvents b :=
  List.filter_append _ _

theorem signEvents_append (a b : List TraceEvent) :
    signEvents (a ++ b) = signEvents a ++ signEvents b :=
  List.filter_append _ _

theorem submitEvents_append (a b : List TraceEvent) :
    submitEvents (a ++ b) = submitEvents a ++ submitEvents b :=
  List.filter_append _ _

theorem builtMints_append (a b : List TraceEvent) :
    builtMints (a ++ b) = builtMints a ++ builtMints b :=
  List.filterMap_append _ _ _

theorem builtOutputs_append (a b : List TraceEvent) :
    builtOutputs (a ++ b) = builtOutputs a ++ builtOutputs b :=
  List.filterMap_append _ _ _

/-- C4: `mintBadge` with action Upgrade and target level 0 fails with
the precondition error containing "Upgrade requires", and the trace
contains no unspent-output query, no build, no signing and no
submission attempt. -/
theorem mintBadge_upgrade_level0_pure (env : MintEnv) (ms hs : String)
    (hint : Option String)
    (hv : env.blueprint.preambleVersion = some "v3")
    (hm : findScript env.blueprint "badge_mint.badge_mint.mint" = .ok ms)
    (hh : findScript env.blueprint "badge_holder.badge_holder.spend" = .ok hs)
    (ho : ValidOwnerHex env.ownerKeyHashHex) :
    (∃ msg, (mintBadge env hint 0 .upgrade).2 = .error msg ∧
      hasSub "Upgrade requires".data msg.data = true) ∧
    queryEvents (mintBadge env hint 0 .upgrade).1 = [] ∧
    buildEvents (mintBadge env hint 0 .upgrade).1 = [] ∧
    signEvents (mintBadge env hint 0 .upgrade).1 = [] ∧
    submitEvents (mintBadge env hint 0 .upgrade).1 = [] := by
  have hcore := mintBadgeCore_reduce 0 .upgrade hv hm hh ho
    (by norm_num) (by norm_num)
  rw [mintBranch_upgrade_level0 env (show (0:Int) < 1 by norm_num)] at hcore
  have h1 : (mintBadgeCore env 0 .upgrade).1 =
      [.logInfo "mintBadge called", .logErr "Badge mint failed"] := by
    rw [hcore]
    rfl
  have h2 : (mintBadgeCore env 0 .upgrade).2 =
      .error "Upgrade requires `level` >= 1 (target new level)" := by
    rw [hcore]
  refine ⟨⟨_, h2, by decide⟩, ?_, ?_, ?_, ?_⟩
  · show queryEvents (ownerHintEvents env hint ++ (mintBadgeCore env 0 .upgrade).1) = []
    rw [queryEvents_append, hint_queryEvents, h1]
    rfl
  · show buildEvents (ownerHintEvents env hint ++ (mintBadgeCore env 0 .upgrade).1) = []
    rw [buildEvents_append, hint_buildEvents, h1]
    rfl
  · show signEvents (ownerHintEvents env hint ++ (mintBadgeCore env 0 .upgrade).1) = []
    rw [signEvents_append, hint_signEvents, h1]
    rfl
  · show submitEvents (ownerHintEvents env hint ++ (mintBadgeCore env 0 .upgrade).1) = []
    rw [submitEvents_append, hint_submitEvents, h1]
    rfl

theorem mintBadge_upgrade_level0_pure_witness :
    (envOK.blueprint.preambleVersion = some "v3") ∧
    ValidOwnerHex envOK.ownerKeyHashHex ∧
    queryEvents (mintBadge envOK none 0 .upgrade).1 = [] ∧
    submitEvents (mintBadge envOK none 0 .upgrade).1 = [] :=
  ⟨rfl, by decide,
    (mintBadge_upgrade_level0_pure envOK "MINTCODE" "SPENDCODE" none rfl rfl rfl
      (by decide)).2.1,
    (mintBadge_upgrade_level0_pure envOK "MINTCODE" "SPENDCODE" none rfl rfl rfl
      (by decide)).2.2.2.2⟩

/-- C5: for Upgrade and Retire, when the unspent-output query finds no
output holding the badge unit, `mintBadge` fails with the state error
naming the looked-up level and the badge-holder address, and the trace
contains no signing and no submission attempt (and no build attempt). -/
theorem mintBadge_noutxo_state_error (env : MintEnv) (ms hs : String)
    (hint : Option String) (level : Int)
    (hv : env.blueprint.preambleVersion = some "v3")
    (hm : findScript env.blueprint "badge_mint.badge_mint.mint" = .ok ms)
    (hh : findScript env.blueprint "badge_holder.badge_holder.spend" = .ok hs)
    (ho : ValidOwnerHex env.ownerKeyHashHex)
    (hq : ∀ a u, env.utxosAtWithUnit a u = []) :
    (1 ≤ level → level ≤ 255 →
      (mintBadge env hint level .upgrade).2 =
        .error ("No badge-holder UTxO found for level " ++ toString (level - 1) ++
          " at " ++ env.validatorToAddress hs) ∧
      signEvents (mintBadge env hint level .upgrade).1 = [] ∧
      submitEvents (mintBadge env hint level .upgrade).1 = [] ∧
      buildEvents (mintBadge env hint level .upgrade).1 = []) ∧
    (0 ≤ level → level ≤ 255 →
      (mintBadge env hint level .retire).2 =
        .error ("No badge-holder UTxO found for level " ++ toString level ++
          " at " ++ env.validatorToAddress hs) ∧
      signEvents (mintBadge env hint level .retire).1 = [] ∧
      submitEvents (mintBadge env hint level .retire).1 = [] ∧
      buildEvents (mintBadge env hint level .retire).1 = []) := by
  constructor
  · intro h1 h255
    have hcore := mintBadgeCore_reduce level .upgrade hv hm hh ho
      (by omega) h255
    rw [mintBranch_upgrade_noutxo env ho h1 h255 ms hs (env.mintingPolicyToId ms)
      ("59" ++ String.mk (toHexByte level.toNat) ++ env.ownerKeyHashHex)
      (env.mintingPolicyToId ms ++
        ("59" ++ String.mk (toHexByte level.toNat) ++ env.ownerKeyHashHex))
      (env.validatorToAddress hs)
      (encodeBadgeDatum env.ownerKeyHashHex level (env.mintingPolicyToId ms))
      (hq _ _)] at hcore
    have ht : (mintBadgeCore env level .upgrade).1 =
        [.logInfo "mintBadge called",
         .utxoQuery (env.validatorToAddress hs)
           (env.mintingPolicyToId ms ++
             ("59" ++ String.mk (toHexByte (level - 1).toNat) ++ env.ownerKeyHashHex)),
         .logErr "Badge mint failed"] := by
      rw [hcore]
      rfl
    have hr : (mintBadgeCore env level .upgrade).2 =
        .error ("No badge-holder UTxO found for level " ++ toString (level - 1) ++
          " at " ++ env.validatorToAddress hs) := by
      rw [hcore]
    refine ⟨hr, ?_, ?_, ?_⟩
    · show signEvents (ownerHintEvents env hint ++ (mintBadgeCore env level .upgrade).1) = []
      rw [signEvents_append, hint_signEvents, ht]
      rfl
    · show submitEvents (ownerHintEvents env hint ++ (mintBadgeCore env level .upgrade).1) = []
      rw [submitEvents_append, hint_submitEvents, ht]
      rfl
    · show buildEvents (ownerHintEvents env hint ++ (mintBadgeCore env level .upgrade).1) = []
      rw [buildEvents_append, hint_buildEvents, ht]
      rfl
  · intro h0 h255
    have hcore := mintBadgeCore_reduce level .retire hv hm hh ho h0 h255
    rw [mintBranch_retire_noutxo env ho h0 h255 ms hs (env.mintingPolicyToId ms)
      ("59" ++ String.mk (toHexByte level.toNat) ++ env.ownerKeyHashHex)
      (env.mintingPolicyToId ms ++
        ("59" ++ String.mk (toHexByte level.toNat) ++ env.ownerKeyHashHex))
      (env.validatorToAddress hs)
      (encodeBadgeDatum env.ownerKeyHashHex level (env.mintingPolicyToId ms))
      (hq _ _)] at hcore
    have ht : (mintBadgeCore env level .retire).1 =
        [.logInfo "mintBadge called",
         .utxoQuery (env.validatorToAddress hs)
           (env.mintingPolicyToId ms ++
             ("59" ++ String.mk (toHexByte level.toNat) ++ env.ownerKeyHashHex)),
         .logErr "Badge mint failed"] := by
      rw [hcore]
      rfl
    have hr : (mintBadgeCore env level .retire).2 =
        .error ("No badge-holder UTxO found for level " ++ toString level ++
          " at " ++ env.validatorToAddress hs) := by
      rw [hcore]
    refine ⟨hr, ?_, ?_, ?_⟩
    · show signEvents (ownerHintEvents env hint ++ (mintBadgeCore env level .retire).1) = []
      rw [signEvents_append, hint_signEvents, ht]
      rfl
    · show submitEvents (ownerHintEvents env hint ++ (mintBadgeCore env level .retire).1) = []
      rw [submitEvents_append, hint_submitEvents, ht]
      rfl
    · show buildEvents (ownerHintEvents env hint ++ (mintBadgeCore env level .retire).1) = []
      rw [buildEvents_append, hint_buildEvents, ht]
      rfl

theorem mintBadge_noutxo_state_error_witness :
    (∀ a u, envNoUtxo.utxosAtWithUnit a u = []) ∧
    (1:Int) ≤ 1 ∧ (1:Int) ≤ 255 ∧
    (mintBadge envNoUtxo none 1 .upgrade).2 =
      .error ("No badge-holder UTxO found for level " ++ toString ((1:Int) - 1) ++
        " at " ++ envNoUtxo.validatorToAddress "SPENDCODE") :=
  ⟨fun _ _ => rfl, by decide, by decide,
    ((mintBadge_noutxo_state_error envNoUtxo "MINTCODE" "SPENDCODE" none 1 rfl rfl rfl
      (by decide) (fun _ _ => rfl)).1 (by decide) (by decide)).1⟩

theorem queryEvents_query_cons (a u : String) (tr : List TraceEvent) :
    queryEvents (.utxoQuery a u :: tr) = .utxoQuery a u :: queryEvents tr := by
  simp [queryEvents]

theorem core_init_queryEvents (env : MintEnv) (level : Int) :
    queryEvents (mintBadgeCore env level .init).1 = [] := by
  unfold mintBadgeCore
  by_cases hv : env.blueprint.preambleVersion ≠ some "v3"
  · rw [if_pos hv]
    rfl
  · rw [if_neg hv]
    cases hm : findScript env.blueprint "badge_mint.badge_mint.mint" with
    | error e => rfl
    | ok bm =>
      dsimp only
      cases hh : findScript env.blueprint "badge_holder.badge_holder.spend" with
      | error e => rfl
      | ok bh =>
        dsimp only
        cases hn : makeBadgeAssetName env.ownerKeyHashHex level with
        | error e => rfl
        | ok an =>
          dsimp only
          rw [mintBranch_init_eval]
          dsimp only
          rw [queryEvents_append, queryEvents_append, errTail_queryEvents,
            runTx_queryEvents]
          rfl

/-- C8: the Init path of `mintBadge` never performs a holder-output
lookup (for any environment, hint and level), while the Upgrade and
Retire paths (once past their precondition and identifier checks)
perform exactly one unspent-output query each, whether or not the query
finds anything and whatever the later build / sign / submit steps do. -/
theorem mintBadge_query_discipline (env : MintEnv) (ms hs : String)
    (hint : Option String) (level : Int) :
    queryEvents (mintBadge env hint level .init).1 = [] ∧
    (env.blueprint.preambleVersion = some "v3" →
      findScript env.blueprint "badge_mint.badge_mint.mint" = .ok ms →
      findScript env.blueprint "badge_holder.badge_holder.spend" = .ok hs →
      ValidOwnerHex env.ownerKeyHashHex →
      (1 ≤ level → level ≤ 255 →
        (queryEvents (mintBadge env hint level .upgrade).1).length = 1) ∧
      (0 ≤ level → level ≤ 255 →
        (queryEvents (mintBadge env hint level .retire).1).length = 1)) := by
  constructor
  · show queryEvents (ownerHintEvents env hint ++ (mintBadgeCore env level .init).1) = []
    rw [queryEvents_append, hint_queryEvents, core_init_queryEvents]
    rfl
  · intro hv hm hh ho
    constructor
    · intro h1 h255
      have hcore := mintBadgeCore_reduce level .upgrade hv hm hh ho
        (by omega) h255
      have hq0 : queryEvents (mintBadge env hint level .upgrade).1 =
          queryEvents (mintBadgeCore env level .upgrade).1 := by
        show queryEvents (ownerHintEvents env hint ++ (mintBadgeCore env level .upgrade).1) = _
        rw [queryEvents_append, hint_queryEvents]
        rfl
      rw [hq0]
      cases hqc : env.utxosAtWithUnit (env.validatorToAddress hs)
          (env.mintingPolicyToId ms ++
            ("59" ++ String.mk (toHexByte (level - 1).toNat) ++ env.ownerKeyHashHex)) with
      | nil =>
        rw [mintBranch_upgrade_noutxo env ho h1 h255 ms hs (env.mintingPolicyToId ms)
          ("59" ++ String.mk (toHexByte level.toNat) ++ env.ownerKeyHashHex)
          (env.mintingPolicyToId ms ++
            ("59" ++ String.mk (toHexByte level.toNat) ++ env.ownerKeyHashHex))
          (env.validatorToAddress hs)
          (encodeBadgeDatum env.ownerKeyHashHex level (env.mintingPolicyToId ms))
          hqc] at hcore
        rw [show (mintBadgeCore env level .upgrade).1 = _ from congrArg Prod.fst hcore]
        rfl
      | cons u rest =>
        rw [mintBranch_upgrade_eval env ho h1 h255 ms hs (env.mintingPolicyToId ms)
          ("59" ++ String.mk (toHexByte level.toNat) ++ env.ownerKeyHashHex)
          (env.mintingPolicyToId ms ++
            ("59" ++ String.mk (toHexByte level.toNat) ++ env.ownerKeyHashHex))
          (env.validatorToAddress hs)
          (encodeBadgeDatum env.ownerKeyHashHex level (env.mintingPolicyToId ms))
          hqc] at hcore
        have ht := congrArg Prod.fst hcore
        dsimp only at ht
        rw [ht, queryEvents_append, queryEvents_append, errTail_queryEvents,
          queryEvents_query_cons, runTx_queryEvents]
        rfl
    · intro h0 h255
      have hcore := mintBadgeCore_reduce level .retire hv hm hh ho h0 h255
      have hq0 : queryEvents (mintBadge env hint level .retire).1 =
          queryEvents (mintBadgeCore env level .retire).1 := by
        show queryEvents (ownerHintEvents env hint ++ (mintBadgeCore env level .retire).1) = _
        rw [queryEvents_append, hint_queryEvents]
        rfl
      rw [hq0]
      cases hqc : env.utxosAtWithUnit (env.validatorToAddress hs)
          (env.mintingPolicyToId ms ++
            ("59" ++ String.mk (toHexByte level.toNat) ++ env.ownerKeyHashHex)) with
      | nil =>
        rw [mintBranch_retire_noutxo env ho h0 h255 ms hs (env.mintingPolicyToId ms)
          ("59" ++ String.mk (toHexByte level.toNat) ++ env.ownerKeyHashHex)
          (env.mintingPolicyToId ms ++
            ("59" ++ String.mk (toHexByte level.toNat) ++ env.ownerKeyHashHex))
          (env.validatorToAddress hs)
          (encodeBadgeDatum env.ownerKeyHashHex level (env.mintingPolicyToId ms))
          hqc] at hcore
        rw [show (mintBadgeCore env level .retire).1 = _ from congrArg Prod.fst hcore]
        rfl
      | cons u rest =>
        rw [mintBranch_retire_eval env ho h0 h255 ms hs (env.mintingPolicyToId ms)
          ("59" ++ String.mk (toHexByte level.toNat) ++ env.ownerKeyHashHex)
          (env.mintingPolicyToId ms ++
            ("59" ++ String.mk (toHexByte level.toNat) ++ env.ownerKeyHashHex))
          (env.validatorToAddress hs)
          (encodeBadgeDatum env.ownerKeyHashHex level (env.mintingPolicyToId ms))
          hqc] at hcore
        have ht := congrArg Prod.fst hcore
        dsimp only at ht
        rw [ht, queryEvents_append, queryEvents_append, errTail_queryEvents,
          queryEvents_query_cons, runTx_queryEvents]
        rfl

theorem mintBadge_query_discipline_witness :
    queryEvents (mintBadge envOK none 2 .init).1 = [] ∧
    ((1:Int) ≤ 2 ∧ (2:Int) ≤ 255 ∧
      (queryEvents (mintBadge envOK none 2 .upgrade).1).length = 1) :=
  ⟨(mintBadge_query_discipline envOK "MINTCODE" "SPENDCODE" none 2).1,
    by decide, by decide,
    ((mintBadge_query_discipline envOK "MINTCODE" "SPENDCODE" none 2).2 rfl rfl rfl
      (by decide)).1 (by decide) (by decide)⟩

/-- C1: for every action kind `mintBadge` requests exactly the expected
mint/burn quantity map — Init mints +1 of the unit for the requested
level, Upgrade mints -1 of the level-(L-1) unit and +1 of the level-L
unit, and Retire mints -1 of the level-L unit while creating no new
badge output (its intent has an empty output list). -/
theorem mintBadge_mint_maps (env : MintEnv) (ms hs : String)
    (hint : Option String) (level : Int)
    (hv : env.blueprint.preambleVersion = some "v3")
    (hm : findScript env.blueprint "badge_mint.badge_mint.mint" = .ok ms)
    (hh : findScript env.blueprint "badge_holder.badge_holder.spend" = .ok hs)
    (ho : ValidOwnerHex env.ownerKeyHashHex)
    (hq : ∀ a u, env.utxosAtWithUnit a u ≠ []) :
    (0 ≤ level → level ≤ 255 →
      builtMints (mintBadge env hint level .init).1 =
        [[(env.mintingPolicyToId ms ++
            ("59" ++ String.mk (toHexByte level.toNat) ++ env.ownerKeyHashHex), 1)]]) ∧
    (1 ≤ level → level ≤ 255 →
      builtMints (mintBadge env hint level .upgrade).1 =
        [[(env.mintingPolicyToId ms ++
            ("59" ++ String.mk (toHexByte (level - 1).toNat) ++ env.ownerKeyHashHex), -1),
          (env.mintingPolicyToId ms ++
            ("59" ++ String.mk (toHexByte level.toNat) ++ env.ownerKeyHashHex), 1)]]) ∧
    (0 ≤ level → level ≤ 255 →
      builtMints (mintBadge env hint level .retire).1 =
        [[(env.mintingPolicyToId ms ++
            ("59" ++ String.mk (toHexByte level.toNat) ++ env.ownerKeyHashHex), -1)]] ∧
      builtOutputs (mintBadge env hint level .retire).1 = [[]]) := by
  refine ⟨?_, ?_, ?_⟩
  · intro h0 h255
    have hcore := mintBadgeCore_reduce level .init hv hm hh ho h0 h255
    rw [mintBranch_init_eval] at hcore
    have ht := congrArg Prod.fst hcore
    dsimp only at ht
    show builtMints (ownerHintEvents env hint ++ (mintBadgeCore env level .init).1) = _
    rw [builtMints_append, hint_builtMints, ht, builtMints_append, builtMints_append,
      errTail_builtMints, runTx_builtMints]
    rfl
  · intro h1 h255
    have hcore := mintBadgeCore_reduce level .upgrade hv hm hh ho
      (by omega) h255
    obtain ⟨u, rest, hqc⟩ := List.exists_cons_of_ne_nil (hq
      (env.validatorToAddress hs)
      (env.mintingPolicyToId ms ++
        ("59" ++ String.mk (toHexByte (level - 1).toNat) ++ env.ownerKeyHashHex)))
    rw [mintBranch_upgrade_eval env ho h1 h255 ms hs (env.mintingPolicyToId ms)
      ("59" ++ String.mk (toHexByte level.toNat) ++ env.ownerKeyHashHex)
      (env.mintingPolicyToId ms ++
        ("59" ++ String.mk (toHexByte level.toNat) ++ env.ownerKeyHashHex))
      (env.validatorToAddress hs)
      (encodeBadgeDatum env.ownerKeyHashHex level (env.mintingPolicyToId ms))
      hqc] at hcore
    have ht := congrArg Prod.fst hcore
    dsimp only at ht
    show builtMints (ownerHintEvents env hint ++ (mintBadgeCore env level .upgrade).1) = _
    rw [builtMints_append, hint_builtMints, ht, builtMints_append, builtMints_append,
      errTail_builtMints]
    show [] ++ (builtMints ([.logInfo "mintBadge called"]) ++
      builtMints (_ :: (runTx env _).1) ++ []) = _
    rw [show ∀ (a u2 : String) (tr : List TraceEvent),
        builtMints (TraceEvent.utxoQuery a u2 :: tr) = builtMints tr from
      fun _ _ _ => rfl, runTx_builtMints]
    rfl
  · intro h0 h255
    have hcore := mintBadgeCore_reduce level .retire hv hm hh ho h0 h255
    obtain ⟨u, rest, hqc⟩ := List.exists_cons_of_ne_nil (hq
      (env.validatorToAddress hs)
      (env.mintingPolicyToId ms ++
        ("59" ++ String.mk (toHexByte level.toNat) ++ env.ownerKeyHashHex)))
    rw [mintBranch_retire_eval env ho h0 h255 ms hs (env.mintingPolicyToId ms)
      ("59" ++ String.mk (toHexByte level.toNat) ++ env.ownerKeyHashHex)
      (env.mintingPolicyToId ms ++
        ("59" ++ String.mk (toHexByte level.toNat) ++ env.ownerKeyHashHex))
      (env.validatorToAddress hs)
      (encodeBadgeDatum env.ownerKeyHashHex level (env.mintingPolicyToId ms))
      hqc] at hcore
    have ht := congrArg Prod.fst hcore
    dsimp only at ht
    constructor
    · show builtMints (ownerHintEvents env hint ++ (mintBadgeCore env level .retire).1) = _
      rw [builtMints_append, hint_builtMints, ht, builtMints_append, builtMints_append,
        errTail_builtMints]
      show [] ++ (builtMints ([.logInfo "mintBadge called"]) ++
        builtMints (_ :: (runTx env _).1) ++ []) = _
      rw [show ∀ (a u2 : String) (tr : List TraceEvent),
          builtMints (TraceEvent.utxoQuery a u2 :: tr) = builtMints tr from
        fun _ _ _ => rfl, runTx_builtMints]
      rfl
    · show builtOutputs (ownerHintEvents env hint ++ (mintBadgeCore env level .retire).1) = _
      rw [builtOutputs_append, hint_builtOutputs, ht, builtOutputs_append,
        builtOutputs_append, errTail_builtOutputs]
      show [] ++ (builtOutputs ([.logInfo "mintBadge called"]) ++
        builtOutputs (_ :: (runTx env _).1) ++ []) = _
      rw [show ∀ (a u2 : String) (tr : List TraceEvent),
          builtOutputs (TraceEvent.utxoQuery a u2 :: tr) = builtOutputs tr from
        fun _ _ _ => rfl, runTx_builtOutputs]
      rfl

theorem mintBadge_mint_maps_witness :
    ValidOwnerHex envOK.ownerKeyHashHex ∧
    builtMints (mintBadge envOK none 0 .init).1 =
      [[(envOK.mintingPolicyToId "MINTCODE" ++
          ("59" ++ String.mk (toHexByte (0:Int).toNat) ++ envOK.ownerKeyHashHex), 1)]] ∧
    builtMints (mintBadge envOK none 1 .upgrade).1 =
      [[(envOK.mintingPolicyToId "MINTCODE" ++
          ("59" ++ String.mk (toHexByte ((1:Int) - 1).toNat) ++ envOK.ownerKeyHashHex), -1),
        (envOK.mintingPolicyToId "MINTCODE" ++
          ("59" ++ String.mk (toHexByte (1:Int).toNat) ++ envOK.ownerKeyHashHex), 1)]] ∧
    builtOutputs (mintBadge envOK none 0 .retire).1 = [[]] :=
  ⟨by decide,
    (mintBadge_mint_maps envOK "MINTCODE" "SPENDCODE" none 0 rfl rfl rfl (by decide)
      (fun _ _ h => List.noConfusion h)).1 (by decide) (by decide),
    (mintBadge_mint_maps envOK "MINTCODE" "SPENDCODE" none 1 rfl rfl rfl (by decide)
      (fun _ _ h => List.noConfusion h)).2.1 (by decide) (by decide),
    ((mintBadge_mint_maps envOK "MINTCODE" "SPENDCODE" none 0 rfl rfl rfl (by decide)
      (fun _ _ h => List.noConfusion h)).2.2 (by decide) (by decide)).2⟩


theorem signEvents_query_cons (a u : String) (tr : List TraceEvent) :
    signEvents (.utxoQuery a u :: tr) = signEvents tr := rfl

theorem submitEvents_query_cons (a u : String) (tr : List TraceEvent) :
    submitEvents (.utxoQuery a u :: tr) = submitEvents tr := rfl

theorem core_branch_shape (env : MintEnv) (ms hs : String) (level : Int)
    (action : BadgeAction)
    (hv : env.blueprint.preambleVersion = some "v3")
    (hm : findScript env.blueprint "badge_mint.badge_mint.mint" = .ok ms)
    (hh : findScript env.blueprint "badge_holder.badge_holder.spend" = .ok hs)
    (ho : ValidOwnerHex env.ownerKeyHashHex)
    (h0 : 0 ≤ level) (h255 : level ≤ 255)
    (hup : action = .upgrade → 1 ≤ level)
    (hq : ∀ a u, env.utxosAtWithUnit a u ≠ []) :
    ∃ (I : TxIntent) (f : String → MintResult),
      (mintBadgeCore env level action).2 = Except.map f (runTx env I).2 ∧
      signEvents (mintBadgeCore env level action).1 = signEvents (runTx env I).1 ∧
      submitEvents (mintBadgeCore env level action).1 = submitEvents (runTx env I).1 ∧
      (∀ hsh, (f hsh).txHash = hsh) := by
  have hcore := mintBadgeCore_reduce level action hv hm hh ho h0 h255
  cases action with
  | init =>
    rw [mintBranch_init_eval] at hcore
    dsimp only at hcore
    refine ⟨_, _, congrArg Prod.snd hcore, ?_, ?_, fun _ => rfl⟩
    · have ht : (mintBadgeCore env level .init).1 = _ := congrArg Prod.fst hcore
      rw [ht, signEvents_append, signEvents_append, errTail_signEvents]
      show [] ++ _ ++ [] = _
      rw [List.nil_append, List.append_nil]
    · have ht : (mintBadgeCore env level .init).1 = _ := congrArg Prod.fst hcore
      rw [ht, submitEvents_append, submitEvents_append, errTail_submitEvents]
      show [] ++ _ ++ [] = _
      rw [List.nil_append, List.append_nil]
  | upgrade =>
    obtain ⟨u, rest, hqc⟩ := List.exists_cons_of_ne_nil (hq
      (env.validatorToAddress hs)
      (env.mintingPolicyToId ms ++
        ("59" ++ String.mk (toHexByte (level - 1).toNat) ++ env.ownerKeyHashHex)))
    rw [mintBranch_upgrade_eval env ho (hup rfl) h255 ms hs (env.mintingPolicyToId ms)
      ("59" ++ String.mk (toHexByte level.toNat) ++ env.ownerKeyHashHex)
      (env.mintingPolicyToId ms ++
        ("59" ++ String.mk (toHexByte level.toNat) ++ env.ownerKeyHashHex))
      (env.validatorToAddress hs)
      (encodeBadgeDatum env.ownerKeyHashHex level (env.mintingPolicyToId ms))
      hqc] at hcore
    dsimp only at hcore
    refine ⟨_, _, congrArg Prod.snd hcore, ?_, ?_, fun _ => rfl⟩
    · have ht : (mintBadgeCore env level .upgrade).1 = _ := congrArg Prod.fst hcore
      rw [ht, signEvents_append, signEvents_append, errTail_signEvents,
        signEvents_query_cons]
      show [] ++ _ ++ [] = _
      rw [List.nil_append, List.append_nil]
    · have ht : (mintBadgeCore env level .upgrade).1 = _ := congrArg Prod.fst hcore
      rw [ht, submitEvents_append, submitEvents_append, errTail_submitEvents,
        submitEvents_query_cons]
      show [] ++ _ ++ [] = _
      rw [List.nil_append, List.append_nil]
  | retire =>
    obtain ⟨u, rest, hqc⟩ := List.exists_cons_of_ne_nil (hq
      (env.validatorToAddress hs)
      (env.mintingPolicyToId ms ++
        ("59" ++ String.mk (toHexByte level.toNat) ++ env.ownerKeyHashHex)))
    rw [mintBranch_retire_eval env ho h0 h255 ms hs (env.mintingPolicyToId ms)
      ("59" ++ String.mk (toHexByte level.toNat) ++ env.ownerKeyHashHex)
      (env.mintingPolicyToId ms ++
        ("59" ++ String.mk (toHexByte level.toNat) ++ env.ownerKeyHashHex))
      (env.validatorToAddress hs)
      (encodeBadgeDatum env.ownerKeyHashHex level (env.mintingPolicyToId ms))
      hqc] at hcore
    dsimp only at hcore
    refine ⟨_, _, congrArg Prod.snd hcore, ?_, ?_, fun _ => rfl⟩
    · have ht : (mintBadgeCore env level .retire).1 = _ := congrArg Prod.fst hcore
      rw [ht, signEvents_append, signEvents_append, errTail_signEvents,
        signEvents_query_cons]
      show [] ++ _ ++ [] = _
      rw [List.nil_append, List.append_nil]
    · have ht : (mintBadgeCore env level .retire).1 = _ := congrArg Prod.fst hcore
      rw [ht, submitEvents_append, submitEvents_append, errTail_submitEvents,
        submitEvents_query_cons]
      show [] ++ _ ++ [] = _
      rw [List.nil_append, List.append_nil]

/-- C6 (amended): a failure of the build, sign or submit step propagates
out of `mintBadge` unchanged — the error is logged ("Badge mint failed")
and rethrown as-is, not annotated with the action attempted — and no
partial submission occurs: when build or sign fails no submission
attempt is made, and a successful run performs exactly one submission
whose hash is returned. -/
theorem mintBadge_failure_propagation (env : MintEnv) (ms hs : String)
    (hint : Option String) (level : Int) (action : BadgeAction)
    (hv : env.blueprint.preambleVersion = some "v3")
    (hm : findScript env.blueprint "badge_mint.badge_mint.mint" = .ok ms)
    (hh : findScript env.blueprint "badge_holder.badge_holder.spend" = .ok hs)
    (ho : ValidOwnerHex env.ownerKeyHashHex)
    (h0 : 0 ≤ level) (h255 : level ≤ 255)
    (hup : action = .upgrade → 1 ≤ level)
    (hq : ∀ a u, env.utxosAtWithUnit a u ≠ []) :
    (∀ eb, env.buildTx = (fun _ => Except.error eb) →
      (mintBadge env hint level action).2 = .error eb ∧
      signEvents (mintBadge env hint level action).1 = [] ∧
      submitEvents (mintBadge env hint level action).1 = []) ∧
    (∀ es, (∀ i, env.buildTx i = .ok ()) → env.signTx = (fun _ => Except.error es) →
      (mintBadge env hint level action).2 = .error es ∧
      submitEvents (mintBadge env hint level action).1 = []) ∧
    (∀ eu, (∀ i, env.buildTx i = .ok ()) → (∀ i, env.signTx i = .ok ()) →
      env.submitTx = (fun _ => Except.error eu) →
      (mintBadge env hint level action).2 = .error eu) ∧
    (∀ hsh, (∀ i, env.buildTx i = .ok ()) → (∀ i, env.signTx i = .ok ()) →
      (∀ i, env.submitTx i = .ok hsh) →
      (∃ r, (mintBadge env hint level action).2 = .ok r ∧ r.txHash = hsh) ∧
      (submitEvents (mintBadge env hint level action).1).length = 1) := by
  obtain ⟨I, f, hres, hsign, hsub, hf⟩ :=
    core_branch_shape env ms hs level action hv hm hh ho h0 h255 hup hq
  have hres2 : (mintBadge env hint level action).2 = Except.map f (runTx env I).2 := hres
  have hsign2 : signEvents (mintBadge env hint level action).1 =
      signEvents (runTx env I).1 := by
    show signEvents (ownerHintEvents env hint ++ (mintBadgeCore env level action).1) = _
    rw [signEvents_append, hint_signEvents, List.nil_append, hsign]
  have hsub2 : submitEvents (mintBadge env hint level action).1 =
      submitEvents (runTx env I).1 := by
    show submitEvents (ownerHintEvents env hint ++ (mintBadgeCore env level action).1) = _
    rw [submitEvents_append, hint_submitEvents, List.nil_append, hsub]
  refine ⟨?_, ?_, ?_, ?_⟩
  · intro eb hbf
    have hrt := runTx_build_err (show env.buildTx I = Except.error eb by rw [hbf])
    refine ⟨?_, ?_, ?_⟩
    · rw [hres2, hrt]
      rfl
    · rw [hsign2, hrt]
      rfl
    · rw [hsub2, hrt]
      rfl
  · intro es hbok hsf
    have hrt := runTx_sign_err (hbok I) (show env.signTx I = .error es by rw [hsf])
    refine ⟨?_, ?_⟩
    · rw [hres2, hrt]
      rfl
    · rw [hsub2, hrt]
      rfl
  · intro eu hbok hsok hsubf
    have hrt := runTx_submit_err (hbok I) (hsok I)
      (show env.submitTx I = .error eu by rw [hsubf])
    rw [hres2, hrt]
    rfl
  · intro hsh hbok hsok hsubok
    have hrt := runTx_all_ok (hbok I) (hsok I) (hsubok I)
    refine ⟨⟨f hsh, ?_, hf hsh⟩, ?_⟩
    · rw [hres2, hrt]
      rfl
    · rw [hsub2, hrt]
      rfl

/-- C6 counterexample: a build failure with message "boom" on an Init
request propagates out of `mintBadge` as exactly `error "boom"` — the
propagated error is not annotated with the attempted action (it contains
neither "Init" nor "mint" nor "Badge"), contradicting the claim that
failures propagate "as a mint-failure error annotated with the action
attempted". -/
theorem mintBadge_failure_not_annotated :
    (mintBadge envBuildFail none 0 .init).2 = .error "boom" ∧
    hasSub "Init".data "boom".data = false ∧
    hasSub "mint".data "boom".data = false ∧
    hasSub "Badge".data "boom".data = false :=
  ⟨rfl, by decide, by decide, by decide⟩

theorem mintBadge_failure_propagation_witness :
    (envBuildFail.buildTx = fun _ => Except.error "boom") ∧
    (mintBadge envBuildFail none 1 .retire).2 = .error "boom" ∧
    signEvents (mintBadge envBuildFail none 1 .retire).1 = [] ∧
    submitEvents (mintBadge envBuildFail none 1 .retire).1 = [] :=
  ⟨rfl,
    ((mintBadge_failure_propagation envBuildFail "MINTCODE" "SPENDCODE" none 1 .retire
      rfl rfl rfl (by decide) (by decide) (by decide) (fun _ => by decide)
      (fun _ _ h => List.noConfusion h)).1 "boom" rfl).1,
    ((mintBadge_failure_propagation envBuildFail "MINTCODE" "SPENDCODE" none 1 .retire
      rfl rfl rfl (by decide) (by decide) (by decide) (fun _ => by decide)
      (fun _ _ h => List.noConfusion h)).1 "boom" rfl).2.1,
    ((mintBadge_failure_propagation envBuildFail "MINTCODE" "SPENDCODE" none 1 .retire
      rfl rfl rfl (by decide) (by decide) (by decide) (fun _ => by decide)
      (fun _ _ h => List.noConfusion h)).1 "boom" rfl).2.2⟩

theorem mintBadge_hint_independent_witness :
    (mintBadge envOK (some "0xgarbage") 0 .init).2 = (mintBadge envOK none 0 .init).2 ∧
    dropWarns (mintBadge envOK (some "0xgarbage") 0 .init).1 =
      dropWarns (mintBadge envOK none 0 .init).1 :=
  ⟨(mintBadge_hint_independent envOK (some "0xgarbage") none 0 .init).1,
    (mintBadge_hint_independent envOK (some "0xgarbage") none 0 .init).2.1⟩

theorem requireHexBytes_characterization_witness :
    requireHexBytes "0xAB12" 2 "f" = .ok (normalizeHex "0xAB12") :=
  (requireHexBytes_characterization "0xAB12" 2 "f").2.1.mpr (by decide)
